import Mathlib

/-!
Verification of the optimistic-update mutation layer for Category entities
(`CategoryMutations`): snapshot capture, speculative cache mutation, error
rollback and settlement invalidation, for the four operations create, update,
reposition and delete.

The cache collaborator (react-query's `QueryClient`) hands out the cached
array *by reference*: `getQueryData` returns the live array, and the functional
updater passed to `setQueryData` receives that same live array and the value it
returns becomes the new cache entry.  Because the update and reposition
transforms mutate the received array in place (`oldCategories[i] = ...`,
`oldCategories.splice(...)`), reference identity is observable, so the cache is
embedded as a small heap of arrays addressed by natural numbers together with
an optional address for the cached Collection.
-/

/-- One category record: server-assigned identity, a title and a further
descriptive field standing for the remaining user-visible fields.  Ordering
position is the index within the cached Collection, not a field. -/
structure CategoryEntity where
  id : Nat
  title : String
  description : String
deriving Repr, DecidableEq

/-- Creation request: the user-supplied fields of a new category. -/
structure CreateCategoryDto where
  title : String
  description : String
deriving Repr, DecidableEq

/-- Update request: a partial record; `none` stands for a field absent from
the request (shallow merge keeps the old value there). -/
structure UpdateCategoryDto where
  title : Option String
  description : Option String
deriving Repr, DecidableEq

/-- Modelled from the spec: `createOptimisticCategory` (Optimistic Factory,
`src/utils/entity.utils`, not under src/).  Spec 4.2: deterministic and pure;
user-supplied fields copied from the request, server-assigned fields set to
fixed sentinels (identity = sentinel-unconfirmed, here 0). -/
def createOptimisticCategory (dto : CreateCategoryDto) : CategoryEntity :=
  { id := 0, title := dto.title, description := dto.description }

/-- Modelled from the spec: `findObjectAndIndexCloneDeep`
(`src/utils/common.utils`, not under src/).  Spec 4.1: returns the index of
the first element matching the predicate together with an independently owned
deep clone of that element, or a not-found result.  In a value language the
deep clone of the element is the element itself. -/
def findObjectAndIndexCloneDeep (p : CategoryEntity → Bool) :
    List CategoryEntity → Option (Nat × CategoryEntity)
  | [] => none
  | e :: es =>
    if p e then some (0, e)
    else (findObjectAndIndexCloneDeep p es).map (fun ic => (ic.1 + 1, ic.2))

/-- Shallow merge of an update request over an entity, as the spread
`{ ...targetCategoryClone, ...updateCategoryDto }`: fields present in the
request win, absent fields keep the entity's value, `id` is not part of the
request so it is kept. -/
def applyUpdateDto (e : CategoryEntity) (dto : UpdateCategoryDto) : CategoryEntity :=
  { id := e.id
    title := match dto.title with | some t => t | none => e.title
    description := match dto.description with | some d => d | none => e.description }

/-- Content semantics of the `setQueryData` updater of
`createCategoryMutation.onMutate`: append a synthesized optimistic entity, or
start a fresh single-element Collection when none is cached. -/
def createTransform (dto : CreateCategoryDto) :
    Option (List CategoryEntity) → List CategoryEntity
  | some old => old ++ [createOptimisticCategory dto]
  | none => [createOptimisticCategory dto]

/-- Content semantics of the `setQueryData` updater of
`updateCategoryMutation.onMutate`: replace the located element by the shallow
merge, or return the empty Collection when the identity is not found or
nothing is cached. -/
def updateTransform (categoryId : Nat) (dto : UpdateCategoryDto) :
    Option (List CategoryEntity) → List CategoryEntity
  | some old =>
    match findObjectAndIndexCloneDeep (fun e => e.id == categoryId) old with
    | some (i, clone) => old.set i (applyUpdateDto clone dto)
    | none => []
  | none => []

/-- Content semantics of the `setQueryData` updater of
`repositionCategoryMutation.onMutate`: splice the located element out of its
index and splice its clone back in at `newPosition`; no-op when the position
is unchanged or out of range, or when the identity is not found; empty
Collection when nothing is cached. -/
def repositionTransform (categoryId : Nat) (newPosition : Int) :
    Option (List CategoryEntity) → List CategoryEntity
  | some old =>
    match findObjectAndIndexCloneDeep (fun e => e.id == categoryId) old with
    | some (i, clone) =>
      if newPosition = (i : Int) ∨ (old.length : Int) ≤ newPosition ∨ newPosition < 0 then
        old
      else
        (old.eraseIdx i).insertIdx newPosition.toNat clone
    | none => old
  | none => []

/-- Content semantics of the `setQueryData` updater of
`deleteCategoryMutation.onMutate`: keep exactly the elements whose identity
differs from the target; empty Collection when nothing is cached. -/
def deleteTransform (categoryId : Nat) :
    Option (List CategoryEntity) → List CategoryEntity
  | some old => old.filter (fun e => e.id != categoryId)
  | none => []

/-- Observable side effects of the mutation layer: the cancellation of pending
refetches in `onMutate`, toast notifications in `onError`/`onSuccess`, and the
staleness invalidation in `onSettled`. -/
inductive Event
  | cancelQueries (key : String)
  | invalidateQueries (key : String)
  | toastError (msg : String)
  | toastSuccess (msg : String)
deriving Repr, DecidableEq

/-- Cache collaborator state.  `heap` holds the arrays that exist, addressed
by position; `cache` is the address of the array currently cached under the
key, if any.  `getQueryData` returns the address (a live reference), and a
`setQueryData` updater either returns that same address after mutating the
array in place, or allocates a fresh array. -/
structure CacheState where
  heap : List (List CategoryEntity)
  cache : Option Nat
deriving Repr, DecidableEq

/-- Read the array stored at a heap address. -/
def heapGet (st : CacheState) (a : Nat) : List CategoryEntity :=
  st.heap.getD a []

/-- Overwrite the array at a heap address in place (JS in-place array
mutation: every reference to the address now sees the new content). -/
def heapSet (st : CacheState) (a : Nat) (l : List CategoryEntity) : CacheState :=
  { st with heap := st.heap.set a l }

/-- Allocate a fresh array (a JS array literal, spread or `filter` result)
and return its address. -/
def heapAlloc (st : CacheState) (l : List CategoryEntity) : CacheState × Nat :=
  ({ st with heap := st.heap ++ [l] }, st.heap.length)

/-- Collection value currently visible in the cache, when one is cached. -/
def readCache (st : CacheState) : Option (List CategoryEntity) :=
  st.cache.map (heapGet st)

/-- Mutation Context threaded from `onMutate` to `onError`:
`previousCategories` as returned by `getQueryData`, i.e. a *reference* to the
cached array (not a copy), or absent when nothing was cached. -/
abbrev MutationContext : Type := Option Nat

/-- Result of an `onMutate` hook: the cache state after the speculative
write, the Mutation Context, and the emitted events. -/
structure MutateResult where
  st : CacheState
  ctx : MutationContext
  events : List Event
deriving Repr

/-- Embeds `createCategoryMutation.onMutate`: cancel refetches, snapshot the
cached array reference, then install `[...oldCategories, optimisticNewCategory]`
(a freshly allocated array) or `[optimisticNewCategory]` when nothing is
cached. -/
def createOnMutate (dto : CreateCategoryDto) (st : CacheState) : MutateResult :=
  let previousCategories : MutationContext := st.cache
  match st.cache with
  | some a =>
    let p := heapAlloc st (heapGet st a ++ [createOptimisticCategory dto])
    ⟨{ p.1 with cache := some p.2 }, previousCategories, [Event.cancelQueries "categories"]⟩
  | none =>
    let p := heapAlloc st [createOptimisticCategory dto]
    ⟨{ p.1 with cache := some p.2 }, previousCategories, [Event.cancelQueries "categories"]⟩

/-- Embeds `updateCategoryMutation.onMutate`: cancel refetches, snapshot the
cached array reference, then `oldCategories[targetCategoryIndex] =
optimisticCategory; return oldCategories` — an in-place write to the *same*
array the snapshot references — or a freshly allocated empty array when the
identity is not found or nothing is cached. -/
def updateOnMutate (categoryId : Nat) (dto : UpdateCategoryDto) (st : CacheState) :
    MutateResult :=
  let previousCategories : MutationContext := st.cache
  match st.cache with
  | some a =>
    let old := heapGet st a
    match findObjectAndIndexCloneDeep (fun e => e.id == categoryId) old with
    | some (i, clone) =>
      ⟨heapSet st a (old.set i (applyUpdateDto clone dto)), previousCategories,
        [Event.cancelQueries "categories"]⟩
    | none =>
      let p := heapAlloc st []
      ⟨{ p.1 with cache := some p.2 }, previousCategories, [Event.cancelQueries "categories"]⟩
  | none =>
    let p := heapAlloc st []
    ⟨{ p.1 with cache := some p.2 }, previousCategories, [Event.cancelQueries "categories"]⟩

/-- Embeds `repositionCategoryMutation.onMutate`: cancel refetches, snapshot
the cached array reference, then either return the array unchanged (no-op
guard or identity not found), or `splice` it in place — again mutating the
very array the snapshot references — or install a freshly allocated empty
array when nothing is cached. -/
def repositionOnMutate (categoryId : Nat) (newPosition : Int) (st : CacheState) :
    MutateResult :=
  let previousCategories : MutationContext := st.cache
  match st.cache with
  | some a =>
    let old := heapGet st a
    match findObjectAndIndexCloneDeep (fun e => e.id == categoryId) old with
    | some (i, clone) =>
      if newPosition = (i : Int) ∨ (old.length : Int) ≤ newPosition ∨ newPosition < 0 then
        ⟨st, previousCategories, [Event.cancelQueries "categories"]⟩
      else
        ⟨heapSet st a ((old.eraseIdx i).insertIdx newPosition.toNat clone),
          previousCategories, [Event.cancelQueries "categories"]⟩
    | none =>
      ⟨st, previousCategories, [Event.cancelQueries "categories"]⟩
  | none =>
    let p := heapAlloc st []
    ⟨{ p.1 with cache := some p.2 }, previousCategories, [Event.cancelQueries "categories"]⟩

/-- Embeds `deleteCategoryMutation.onMutate`: cancel refetches, snapshot the
cached array reference, then install the freshly allocated `filter` result
(or a fresh empty array when nothing is cached). -/
def deleteOnMutate (categoryId : Nat) (st : CacheState) : MutateResult :=
  let previousCategories : MutationContext := st.cache
  match st.cache with
  | some a =>
    let p := heapAlloc st ((heapGet st a).filter (fun e => e.id != categoryId))
    ⟨{ p.1 with cache := some p.2 }, previousCategories, [Event.cancelQueries "categories"]⟩
  | none =>
    let p := heapAlloc st []
    ⟨{ p.1 with cache := some p.2 }, previousCategories, [Event.cancelQueries "categories"]⟩

/-- Transport error as observed by `onError`: `some s` is a truthy error value
whose `String(err)` rendering is `s`; `none` is an absent (falsy) error. -/
abbrev TransportError : Type := Option String

/-- Renders the tail of an error toast, the template fragment
`err ? \x7b backtick \n dollar \x7bString(err)\x7d backtick \x7d : }` shared by
all four mutations: a newline plus the rendering when the error is truthy,
nothing otherwise. -/
def errRendering (err : TransportError) : String :=
  match err with
  | some s => "\n" ++ s
  | none => ""

/-- Rollback step shared by every `onError` hook: when the context carries a
snapshot reference, `setQueryData` installs that reference back as the cache
entry; otherwise nothing happens. -/
def rollback (ctx : MutationContext) (st : CacheState) : CacheState :=
  match ctx with
  | some a => { st with cache := some a }
  | none => st

/-- Embeds `createCategoryMutation.onError`. -/
def createOnError (err : TransportError) (ctx : MutationContext) (st : CacheState) :
    CacheState × List Event :=
  (rollback ctx st,
    [Event.toastError ("An error occurred while creating a new Category" ++ errRendering err)])

/-- Embeds `updateCategoryMutation.onError`. -/
def updateOnError (err : TransportError) (ctx : MutationContext) (st : CacheState) :
    CacheState × List Event :=
  (rollback ctx st,
    [Event.toastError ("An error occurred while updating Category" ++ errRendering err)])

/-- Embeds `repositionCategoryMutation.onError`. -/
def repositionOnError (err : TransportError) (ctx : MutationContext) (st : CacheState) :
    CacheState × List Event :=
  (rollback ctx st,
    [Event.toastError ("An error occurred while repositioning Category" ++ errRendering err)])

/-- Embeds `deleteCategoryMutation.onError`. -/
def deleteOnError (err : TransportError) (ctx : MutationContext) (st : CacheState) :
    CacheState × List Event :=
  (rollback ctx st,
    [Event.toastError ("An error occurred while deleting the Category" ++ errRendering err)])

/-- Embeds the `onSettled` hook, identical in all four mutations:
`invalidateQueries('categories')`. -/
def onSettled : List Event :=
  [Event.invalidateQueries "categories"]

/-- Embeds `createCategoryMutation.onSuccess` with the entity returned by the
transport call. -/
def createOnSuccess (category : CategoryEntity) : List Event :=
  [Event.toastSuccess ("Category \"" ++ category.title ++ "\" created!")]

/-- Embeds `updateCategoryMutation.onSuccess`. -/
def updateOnSuccess (category : CategoryEntity) : List Event :=
  [Event.toastSuccess ("Category \"" ++ category.title ++ "\" updated!")]

/-- Embeds `repositionCategoryMutation.onSuccess`. -/
def repositionOnSuccess (category : CategoryEntity) : List Event :=
  [Event.toastSuccess ("Category \"" ++ category.title ++ "\" repositioned!")]

/-- Embeds `deleteCategoryMutation.onSuccess` with the deletion receipt. -/
def deleteOnSuccess (affected : Nat) : List Event :=
  [Event.toastSuccess (toString affected ++ " Category deleted!")]

/-- Transport outcome for create, update and reposition: the confirmed entity
on success, the error value on failure. -/
abbrev EntityOutcome : Type := Except TransportError CategoryEntity

/-- Transport outcome for delete: the affected-row count on success, the
error value on failure. -/
abbrev ReceiptOutcome : Type := Except TransportError Nat

/-- Full lifecycle of one create invocation: `onMutate`, then — depending on
the transport outcome — `onSuccess` or `onError`, then `onSettled`.  Returns
the final cache state and the emitted events in order. -/
def runCreate (dto : CreateCategoryDto) (outcome : EntityOutcome) (st : CacheState) :
    CacheState × List Event :=
  let m := createOnMutate dto st
  match outcome with
  | Except.ok category => (m.st, m.events ++ createOnSuccess category ++ onSettled)
  | Except.error err =>
    let p := createOnError err m.ctx m.st
    (p.1, m.events ++ p.2 ++ onSettled)

/-- Full lifecycle of one update invocation. -/
def runUpdate (categoryId : Nat) (dto : UpdateCategoryDto) (outcome : EntityOutcome)
    (st : CacheState) : CacheState × List Event :=
  let m := updateOnMutate categoryId dto st
  match outcome with
  | Except.ok category => (m.st, m.events ++ updateOnSuccess category ++ onSettled)
  | Except.error err =>
    let p := updateOnError err m.ctx m.st
    (p.1, m.events ++ p.2 ++ onSettled)

/-- Full lifecycle of one reposition invocation. -/
def runReposition (categoryId : Nat) (newPosition : Int) (outcome : EntityOutcome)
    (st : CacheState) : CacheState × List Event :=
  let m := repositionOnMutate categoryId newPosition st
  match outcome with
  | Except.ok category => (m.st, m.events ++ repositionOnSuccess category ++ onSettled)
  | Except.error err =>
    let p := repositionOnError err m.ctx m.st
    (p.1, m.events ++ p.2 ++ onSettled)

/-- Full lifecycle of one delete invocation. -/
def runDelete (categoryId : Nat) (outcome : ReceiptOutcome) (st : CacheState) :
    CacheState × List Event :=
  let m := deleteOnMutate categoryId st
  match outcome with
  | Except.ok affected => (m.st, m.events ++ deleteOnSuccess affected ++ onSettled)
  | Except.error err =>
    let p := deleteOnError err m.ctx m.st
    (p.1, m.events ++ p.2 ++ onSettled)

/-- Notification events are the success and error toasts. -/
def isNotification : Event → Bool
  | Event.toastError _ => true
  | Event.toastSuccess _ => true
  | _ => false

/-- Staleness-invalidation events for the category key. -/
def isInvalidation : Event → Bool
  | Event.invalidateQueries key => key == "categories"
  | _ => false

/-- Shape required of one invocation's event trace by the settlement
invariant: exactly one invalidation of the key, occurring after a success or
error notification. -/
def settledOnce (evs : List Event) : Prop :=
  (evs.filter isInvalidation).length = 1 ∧
  ∃ i j : Nat, i < j ∧ (evs[i]?.map isNotification = some true) ∧
    (evs[j]?.map isInvalidation = some true)

theorem findObjectAndIndexCloneDeep_some {p : CategoryEntity → Bool} :
    ∀ {l : List CategoryEntity} {i : Nat} {e : CategoryEntity},
      findObjectAndIndexCloneDeep p l = some (i, e) → l[i]? = some e := by
  intro l
  induction l with
  | nil => intro i e h; simp [findObjectAndIndexCloneDeep] at h
  | cons a as ih =>
    intro i e h
    by_cases hp : p a
    · rw [findObjectAndIndexCloneDeep, if_pos hp] at h
      injection h with h2
      injection h2 with h3 h4
      subst h3; subst h4
      simp
    · rw [findObjectAndIndexCloneDeep, if_neg hp] at h
      cases hfa : findObjectAndIndexCloneDeep p as with
      | none => rw [hfa] at h; simp at h
      | some pr =>
        rw [hfa] at h
        obtain ⟨i2, e2⟩ := pr
        simp at h
        obtain ⟨h3, h4⟩ := h
        subst h4
        rw [← h3]
        simpa using ih hfa

theorem findObjectAndIndexCloneDeep_some_lt {p : CategoryEntity → Bool}
    {l : List CategoryEntity} {i : Nat} {e : CategoryEntity}
    (h : findObjectAndIndexCloneDeep p l = some (i, e)) : i < l.length := by
  have h2 := findObjectAndIndexCloneDeep_some h
  rw [List.getElem?_eq_some] at h2
  exact h2.1

theorem readCache_mk_alloc (st : CacheState) (l : List CategoryEntity) :
    readCache { (heapAlloc st l).1 with cache := some (heapAlloc st l).2 } = some l := by
  simp [readCache, heapAlloc, heapGet, List.getElem?_concat_length]

theorem heapGet_ne_nil_lt {st : CacheState} {a : Nat} (h : heapGet st a ≠ []) :
    a < st.heap.length := by
  by_contra hlt
  push_neg at hlt
  apply h
  simp [heapGet, List.getElem?_eq_none hlt]

theorem heapGet_heapSet_self {st : CacheState} {a : Nat} (h : a < st.heap.length)
    (l : List CategoryEntity) : heapGet (heapSet st a l) a = l := by
  simp [heapGet, heapSet, List.getElem?_set_eq_of_lt _ h]

/-- C1: the claim asserts that after a failed operation the ERROR-phase
rollback always restores the pre-APPLY Collection because the snapshot is an
independent deep copy.  The code takes the snapshot by reference
(`getQueryData`) and the update transform mutates that very array in place,
so on the concrete input below — cached Collection `[{id 1, title A}]`,
update of title to B, failing transport — the Collection visible after the
ERROR phase is the speculative `[{id 1, title B}]`, not the pre-APPLY value:
the rollback restored the already-mutated array. -/
theorem update_failed_run_keeps_speculative_state :
    readCache (⟨[[⟨1, "A", "a"⟩]], some 0⟩ : CacheState) = some [⟨1, "A", "a"⟩] ∧
    readCache (runUpdate 1 ⟨some "B", none⟩ (Except.error (some "network"))
      ⟨[[⟨1, "A", "a"⟩]], some 0⟩).1 = some [⟨1, "B", "a"⟩] ∧
    (some [(⟨1, "B", "a"⟩ : CategoryEntity)] ≠ some [(⟨1, "A", "a"⟩ : CategoryEntity)]) := by
  refine ⟨by decide, by decide, by decide⟩

/-- C2 counterexample: the claim asserts that for every operation started
with no cached Collection the cache stays absent/empty (contains no entities)
after the ERROR phase.  For create this is false: the speculative append
installs the synthesized optimistic entity and the no-op rollback leaves it
there, so after the ERROR phase the cache is present and non-empty. -/
theorem create_failed_with_absent_cache_keeps_entity :
    readCache (runCreate ⟨"T", "D"⟩ (Except.error (some "network")) ⟨[], none⟩).1 =
      some [⟨0, "T", "D"⟩] ∧
    (some [(⟨0, "T", "D"⟩ : CategoryEntity)] ≠ none) ∧
    (some [(⟨0, "T", "D"⟩ : CategoryEntity)] ≠ some []) := by
  refine ⟨by decide, by decide, by decide⟩

/-- C2 as amended: for every operation invoked when no Collection is cached,
the captured `previousCategories` is absent and the ERROR-phase rollback is a
no-op; after the ERROR phase the identity-targeted operations (update,
reposition, delete) leave the present-but-empty Collection in the cache,
while create leaves the single synthesized optimistic entity. -/
theorem absent_cache_rollback_noop (st : CacheState) (h : st.cache = none)
    (dto : CreateCategoryDto) (categoryId : Nat) (udto : UpdateCategoryDto)
    (newPosition : Int) (err : TransportError) :
    (createOnMutate dto st).ctx = none ∧
    (updateOnMutate categoryId udto st).ctx = none ∧
    (repositionOnMutate categoryId newPosition st).ctx = none ∧
    (deleteOnMutate categoryId st).ctx = none ∧
    (∀ s : CacheState, rollback none s = s) ∧
    readCache (runCreate dto (Except.error err) st).1 = some [createOptimisticCategory dto] ∧
    readCache (runUpdate categoryId udto (Except.error err) st).1 = some [] ∧
    readCache (runReposition categoryId newPosition (Except.error err) st).1 = some [] ∧
    readCache (runDelete categoryId (Except.error err) st).1 = some [] := by
  refine ⟨?_, ?_, ?_, ?_, fun s => rfl, ?_, ?_, ?_, ?_⟩
  · simp [createOnMutate, h]
  · simp [updateOnMutate, h]
  · simp [repositionOnMutate, h]
  · simp [deleteOnMutate, h]
  · simp [runCreate, createOnMutate, createOnError, rollback, h, readCache, heapAlloc,
      heapGet, List.getElem?_concat_length]
  · simp [runUpdate, updateOnMutate, updateOnError, rollback, h, readCache, heapAlloc,
      heapGet, List.getElem?_concat_length]
  · simp [runReposition, repositionOnMutate, repositionOnError, rollback, h, readCache,
      heapAlloc, heapGet, List.getElem?_concat_length]
  · simp [runDelete, deleteOnMutate, deleteOnError, rollback, h, readCache, heapAlloc,
      heapGet, List.getElem?_concat_length]

/-- C2 witness: the amended statement instantiated at the empty cache state
with concrete requests. -/
theorem absent_cache_rollback_noop_witness :
    (createOnMutate ⟨"T", "D"⟩ ⟨[], none⟩).ctx = none ∧
    (updateOnMutate 1 ⟨some "B", none⟩ ⟨[], none⟩).ctx = none ∧
    (repositionOnMutate 1 0 ⟨[], none⟩).ctx = none ∧
    (deleteOnMutate 1 ⟨[], none⟩).ctx = none ∧
    (∀ s : CacheState, rollback none s = s) ∧
    readCache (runCreate ⟨"T", "D"⟩ (Except.error (some "x")) ⟨[], none⟩).1 =
      some [createOptimisticCategory ⟨"T", "D"⟩] ∧
    readCache (runUpdate 1 ⟨some "B", none⟩ (Except.error (some "x")) ⟨[], none⟩).1 = some [] ∧
    readCache (runReposition 1 0 (Except.error (some "x")) ⟨[], none⟩).1 = some [] ∧
    readCache (runDelete 1 (Except.error (some "x")) ⟨[], none⟩).1 = some [] :=
  absent_cache_rollback_noop ⟨[], none⟩ rfl ⟨"T", "D"⟩ 1 ⟨some "B", none⟩ 0 (some "x")

theorem createOnMutate_events (dto : CreateCategoryDto) (st : CacheState) :
    (createOnMutate dto st).events = [Event.cancelQueries "categories"] := by
  obtain ⟨heap, cache⟩ := st
  cases cache <;> rfl

theorem updateOnMutate_events (categoryId : Nat) (udto : UpdateCategoryDto) (st : CacheState) :
    (updateOnMutate categoryId udto st).events = [Event.cancelQueries "categories"] := by
  obtain ⟨heap, cache⟩ := st
  cases cache with
  | none => rfl
  | some a =>
    simp only [updateOnMutate]
    cases findObjectAndIndexCloneDeep (fun e => e.id == categoryId)
        (heapGet ⟨heap, some a⟩ a) with
    | none => rfl
    | some pr => obtain ⟨i, clone⟩ := pr; rfl

theorem repositionOnMutate_events (categoryId : Nat) (newPosition : Int) (st : CacheState) :
    (repositionOnMutate categoryId newPosition st).events =
      [Event.cancelQueries "categories"] := by
  obtain ⟨heap, cache⟩ := st
  cases cache with
  | none => rfl
  | some a =>
    simp only [repositionOnMutate]
    cases findObjectAndIndexCloneDeep (fun e => e.id == categoryId)
        (heapGet ⟨heap, some a⟩ a) with
    | none => rfl
    | some pr =>
      obtain ⟨i, clone⟩ := pr
      split
      · split <;> rfl
      · rfl

theorem deleteOnMutate_events (categoryId : Nat) (st : CacheState) :
    (deleteOnMutate categoryId st).events = [Event.cancelQueries "categories"] := by
  obtain ⟨heap, cache⟩ := st
  cases cache <;> rfl

theorem settledOnce_shape (evs toastEvs : List Event) (m : Event)
    (h : evs = [Event.cancelQueries "categories"]) (ht : toastEvs = [m])
    (hm : isNotification m = true) (h2 : isInvalidation m = false) :
    settledOnce (evs ++ toastEvs ++ onSettled) := by
  subst h; subst ht
  constructor
  · have h3 : isInvalidation (Event.cancelQueries "categories") = false := rfl
    have h4 : isInvalidation (Event.invalidateQueries "categories") = true := rfl
    simp only [onSettled, List.cons_append, List.nil_append, List.filter_cons,
      List.filter_nil, h2, h3, h4]
    simp
  · refine ⟨1, 2, by omega, ?_, ?_⟩
    · simp [onSettled, hm]
    · simp [onSettled, isInvalidation]

/-- C3: for every invocation of any of the four operations, the event trace
contains exactly one staleness-invalidation of the category key, whether the
transport succeeded or failed, and it occurs after the success or error
notification. -/
theorem settlement_invariant (st : CacheState) (dto : CreateCategoryDto)
    (categoryId : Nat) (udto : UpdateCategoryDto) (newPosition : Int)
    (c : CategoryEntity) (affected : Nat) (err : TransportError) :
    settledOnce (runCreate dto (Except.ok c) st).2 ∧
    settledOnce (runCreate dto (Except.error err) st).2 ∧
    settledOnce (runUpdate categoryId udto (Except.ok c) st).2 ∧
    settledOnce (runUpdate categoryId udto (Except.error err) st).2 ∧
    settledOnce (runReposition categoryId newPosition (Except.ok c) st).2 ∧
    settledOnce (runReposition categoryId newPosition (Except.error err) st).2 ∧
    settledOnce (runDelete categoryId (Except.ok affected) st).2 ∧
    settledOnce (runDelete categoryId (Except.error err) st).2 := by
  refine ⟨?_, ?_, ?_, ?_, ?_, ?_, ?_, ?_⟩
  · exact settledOnce_shape _ _ _ (createOnMutate_events dto st) rfl rfl rfl
  · exact settledOnce_shape _ _ _ (createOnMutate_events dto st) rfl rfl rfl
  · exact settledOnce_shape _ _ _ (updateOnMutate_events categoryId udto st) rfl rfl rfl
  · exact settledOnce_shape _ _ _ (updateOnMutate_events categoryId udto st) rfl rfl rfl
  · exact settledOnce_shape _ _ _ (repositionOnMutate_events categoryId newPosition st) rfl rfl rfl
  · exact settledOnce_shape _ _ _ (repositionOnMutate_events categoryId newPosition st) rfl rfl rfl
  · exact settledOnce_shape _ _ _ (deleteOnMutate_events categoryId st) rfl rfl rfl
  · exact settledOnce_shape _ _ _ (deleteOnMutate_events categoryId st) rfl rfl rfl

/-- C4: reposition boundary behavior.  When the locate utility finds the
target identity at index `i` of the cached Collection, repositioning to the
same index, to a negative index, or to an index at or beyond the length is a
no-op; repositioning to an in-range different index preserves the length,
places the moved element exactly at `newPosition`, and keeps every other
element in its original relative order (erasing the moved element from the
result gives the original Collection minus the moved element); when the
identity is not found the Collection is unchanged. -/
theorem reposition_boundary (categoryId : Nat) (newPosition : Int) (l : List CategoryEntity) :
    (∀ i e, findObjectAndIndexCloneDeep (fun c => c.id == categoryId) l = some (i, e) →
      ((newPosition = (i : Int) ∨ newPosition < 0 ∨ (l.length : Int) ≤ newPosition) →
        repositionTransform categoryId newPosition (some l) = l) ∧
      (0 ≤ newPosition → newPosition < (l.length : Int) → newPosition ≠ (i : Int) →
        (repositionTransform categoryId newPosition (some l)).length = l.length ∧
        (repositionTransform categoryId newPosition (some l))[newPosition.toNat]? = some e ∧
        (repositionTransform categoryId newPosition (some l)).eraseIdx newPosition.toNat =
          l.eraseIdx i)) ∧
    (findObjectAndIndexCloneDeep (fun c => c.id == categoryId) l = none →
      repositionTransform categoryId newPosition (some l) = l) := by
  constructor
  · intro i e h
    constructor
    · intro hc
      simp only [repositionTransform, h]
      rw [if_pos (by tauto)]
    · intro h0 hlen hne
      have hi := findObjectAndIndexCloneDeep_some_lt h
      have hcond : ¬(newPosition = (i : Int) ∨ ((l.length : Int) ≤ newPosition) ∨
          newPosition < 0) := by
        push_neg
        exact ⟨hne, hlen, h0⟩
      have hr : repositionTransform categoryId newPosition (some l) =
          (l.eraseIdx i).insertIdx newPosition.toNat e := by
        simp only [repositionTransform, h]
        rw [if_neg hcond]
      have hlen2 : (l.eraseIdx i).length = l.length - 1 := by
        rw [List.length_eraseIdx]
        simp [hi]
      have hpos : newPosition.toNat ≤ (l.eraseIdx i).length := by
        rw [hlen2]
        omega
      rw [hr]
      refine ⟨?_, ?_, ?_⟩
      · rw [List.length_insertIdx _ _ hpos, hlen2]
        omega
      · rw [List.getElem?_eq_getElem (by rw [List.length_insertIdx _ _ hpos]; omega)]
        rw [List.getElem_insertIdx_self _ _ _ hpos]
      · exact List.eraseIdx_insertIdx newPosition.toNat (l.eraseIdx i)
  · intro h
    simp only [repositionTransform, h]

/-- C4 witness: the scenario of spec section 8 — moving id 3 of a
three-element Collection to index 0 — plus a no-op negative target and a
no-op for a missing identity. -/
theorem reposition_boundary_witness :
    (repositionTransform 3 0 (some [⟨1, "A", "a"⟩, ⟨2, "B", "b"⟩, ⟨3, "C", "c"⟩])).length =
      ([⟨1, "A", "a"⟩, ⟨2, "B", "b"⟩, ⟨3, "C", "c"⟩] : List CategoryEntity).length ∧
    (repositionTransform 3 0 (some [⟨1, "A", "a"⟩, ⟨2, "B", "b"⟩, ⟨3, "C", "c"⟩]))[(0 : Int).toNat]? =
      some ⟨3, "C", "c"⟩ ∧
    (repositionTransform 3 0
        (some [⟨1, "A", "a"⟩, ⟨2, "B", "b"⟩, ⟨3, "C", "c"⟩])).eraseIdx (0 : Int).toNat =
      ([⟨1, "A", "a"⟩, ⟨2, "B", "b"⟩, ⟨3, "C", "c"⟩] : List CategoryEntity).eraseIdx 2 ∧
    repositionTransform 3 (-1) (some [⟨1, "A", "a"⟩, ⟨2, "B", "b"⟩, ⟨3, "C", "c"⟩]) =
      [⟨1, "A", "a"⟩, ⟨2, "B", "b"⟩, ⟨3, "C", "c"⟩] ∧
    repositionTransform 9 0 (some [⟨1, "A", "a"⟩, ⟨2, "B", "b"⟩, ⟨3, "C", "c"⟩]) =
      [⟨1, "A", "a"⟩, ⟨2, "B", "b"⟩, ⟨3, "C", "c"⟩] := by
  have hmove := ((reposition_boundary 3 0 [⟨1, "A", "a"⟩, ⟨2, "B", "b"⟩, ⟨3, "C", "c"⟩]).1
    2 ⟨3, "C", "c"⟩ (by decide)).2 (by decide) (by decide) (by decide)
  have hneg := ((reposition_boundary 3 (-1) [⟨1, "A", "a"⟩, ⟨2, "B", "b"⟩, ⟨3, "C", "c"⟩]).1
    2 ⟨3, "C", "c"⟩ (by decide)).1 (by right; left; decide)
  have hmiss := (reposition_boundary 9 0 [⟨1, "A", "a"⟩, ⟨2, "B", "b"⟩, ⟨3, "C", "c"⟩]).2
    (by decide)
  exact ⟨hmove.1, hmove.2.1, hmove.2.2, hneg, hmiss⟩

/-- C5: update merge law.  When the locate utility finds the target identity
at index `i`, the update transform yields at that index an entity whose
identity is unchanged and whose fields are the request's fields where present
and the located entity's fields where absent (shallow merge, request wins);
when the identity is not found the transform yields the empty Collection. -/
theorem update_merge_law (categoryId : Nat) (dto : UpdateCategoryDto) (l : List CategoryEntity) :
    (∀ i e, findObjectAndIndexCloneDeep (fun c => c.id == categoryId) l = some (i, e) →
      ∃ r, (updateTransform categoryId dto (some l))[i]? = some r ∧
        r.id = e.id ∧
        r.title = dto.title.getD e.title ∧
        r.description = dto.description.getD e.description) ∧
    (findObjectAndIndexCloneDeep (fun c => c.id == categoryId) l = none →
      updateTransform categoryId dto (some l) = []) := by
  constructor
  · intro i e h
    have hi := findObjectAndIndexCloneDeep_some_lt h
    refine ⟨applyUpdateDto e dto, ?_, rfl, ?_, ?_⟩
    · simp only [updateTransform, h]
      exact List.getElem?_set_eq_of_lt _ hi
    · cases h2 : dto.title <;> simp [applyUpdateDto, h2]
    · cases h2 : dto.description <;> simp [applyUpdateDto, h2]
  · intro h
    simp only [updateTransform, h]

/-- C5 witness: updating the title of id 1 in a two-element Collection keeps
its identity and untouched description, and updating a missing id 9 yields
the empty Collection. -/
theorem update_merge_law_witness :
    (∃ r, (updateTransform 1 ⟨some "B", none⟩
        (some [⟨1, "A", "a"⟩, ⟨2, "X", "x"⟩]))[0]? = some r ∧
      r.id = 1 ∧ r.title = "B" ∧ r.description = "a") ∧
    updateTransform 9 ⟨some "B", none⟩ (some [⟨1, "A", "a"⟩, ⟨2, "X", "x"⟩]) = [] :=
  ⟨(update_merge_law 1 ⟨some "B", none⟩ [⟨1, "A", "a"⟩, ⟨2, "X", "x"⟩]).1 0 ⟨1, "A", "a"⟩
      (by decide),
   (update_merge_law 9 ⟨some "B", none⟩ [⟨1, "A", "a"⟩, ⟨2, "X", "x"⟩]).2 (by decide)⟩

/-- C6: delete exclusivity.  The delete transform produces a subsequence of
the Collection (so all kept elements retain their relative order), every
element of the result has an identity different from the target, and every
element whose identity differs from the target is kept. -/
theorem delete_exclusivity (categoryId : Nat) (l : List CategoryEntity) :
    List.Sublist (deleteTransform categoryId (some l)) l ∧
    (∀ e, e ∈ deleteTransform categoryId (some l) → e.id ≠ categoryId) ∧
    (∀ e, e ∈ l → e.id ≠ categoryId → e ∈ deleteTransform categoryId (some l)) := by
  refine ⟨List.filter_sublist l, ?_, ?_⟩
  · intro e he
    simp only [deleteTransform, List.mem_filter] at he
    simpa using he.2
  · intro e hel hne
    simp only [deleteTransform, List.mem_filter]
    exact ⟨hel, by simpa using hne⟩

/-- C6 witness: deleting id 1 from a two-element Collection keeps id 2 and
yields a subsequence of the original. -/
theorem delete_exclusivity_witness :
    List.Sublist (deleteTransform 1 (some [⟨1, "A", "a"⟩, ⟨2, "B", "b"⟩]))
      [⟨1, "A", "a"⟩, ⟨2, "B", "b"⟩] ∧
    (⟨2, "B", "b"⟩ : CategoryEntity) ∈ deleteTransform 1 (some [⟨1, "A", "a"⟩, ⟨2, "B", "b"⟩]) :=
  ⟨(delete_exclusivity 1 [⟨1, "A", "a"⟩, ⟨2, "B", "b"⟩]).1,
   (delete_exclusivity 1 [⟨1, "A", "a"⟩, ⟨2, "B", "b"⟩]).2.2 ⟨2, "B", "b"⟩ (by decide)
     (by decide)⟩

/-- C7: the create transform appends exactly one synthesized optimistic
entity at the end: the length grows by one, the existing prefix is unchanged,
the last element is the synthesized entity carrying the request's fields, and
with no cached Collection the result is the single-element sequence. -/
theorem create_append_shape (dto : CreateCategoryDto) (l : List CategoryEntity) :
    (createTransform dto (some l)).length = l.length + 1 ∧
    (createTransform dto (some l)).take l.length = l ∧
    (createTransform dto (some l)).getLast? = some (createOptimisticCategory dto) ∧
    createTransform dto none = [createOptimisticCategory dto] ∧
    (createOptimisticCategory dto).title = dto.title ∧
    (createOptimisticCategory dto).description = dto.description := by
  refine ⟨?_, ?_, ?_, rfl, rfl, rfl⟩
  · simp [createTransform]
  · exact List.take_left l [createOptimisticCategory dto]
  · exact List.getLast?_concat l

/-- C9: every identity-targeted operation started with no cached Collection
installs the present-but-empty Collection during its speculative transform,
so the key afterwards holds an empty Collection rather than staying absent. -/
theorem absent_cache_identity_ops_install_empty (st : CacheState) (h : st.cache = none)
    (categoryId : Nat) (dto : UpdateCategoryDto) (newPosition : Int) :
    readCache (updateOnMutate categoryId dto st).st = some [] ∧
    readCache (repositionOnMutate categoryId newPosition st).st = some [] ∧
    readCache (deleteOnMutate categoryId st).st = some [] := by
  refine ⟨?_, ?_, ?_⟩ <;>
    simp [updateOnMutate, repositionOnMutate, deleteOnMutate, h, readCache, heapAlloc,
      heapGet, List.getElem?_concat_length]

/-- C9 witness: the statement at the empty cache state. -/
theorem absent_cache_identity_ops_install_empty_witness :
    readCache (updateOnMutate 1 ⟨some "B", none⟩ ⟨[], none⟩).st = some [] ∧
    readCache (repositionOnMutate 1 0 ⟨[], none⟩).st = some [] ∧
    readCache (deleteOnMutate 1 ⟨[], none⟩).st = some [] :=
  absent_cache_identity_ops_install_empty ⟨[], none⟩ rfl 1 ⟨some "B", none⟩ 0

/-- C10: when the locate utility finds the target identity at index `i`, the
update transform preserves the length of the Collection and leaves the
element at every other index unchanged. -/
theorem update_frame (categoryId : Nat) (dto : UpdateCategoryDto) (l : List CategoryEntity)
    (i : Nat) (e : CategoryEntity)
    (h : findObjectAndIndexCloneDeep (fun c => c.id == categoryId) l = some (i, e)) :
    (updateTransform categoryId dto (some l)).length = l.length ∧
    ∀ j, j ≠ i → (updateTransform categoryId dto (some l))[j]? = l[j]? := by
  constructor
  · simp only [updateTransform, h]
    exact List.length_set l i _
  · intro j hj
    simp only [updateTransform, h]
    exact List.getElem?_set_ne (Ne.symm hj)

/-- C10 witness: updating id 1 at index 0 of a two-element Collection keeps
the length and the element at index 1. -/
theorem update_frame_witness :
    (updateTransform 1 ⟨some "B", none⟩ (some [⟨1, "A", "a"⟩, ⟨2, "X", "x"⟩])).length =
      ([⟨1, "A", "a"⟩, ⟨2, "X", "x"⟩] : List CategoryEntity).length ∧
    (updateTransform 1 ⟨some "B", none⟩ (some [⟨1, "A", "a"⟩, ⟨2, "X", "x"⟩]))[1]? =
      ([⟨1, "A", "a"⟩, ⟨2, "X", "x"⟩] : List CategoryEntity)[1]? :=
  ⟨(update_frame 1 ⟨some "B", none⟩ [⟨1, "A", "a"⟩, ⟨2, "X", "x"⟩] 0 ⟨1, "A", "a"⟩
      (by decide)).1,
   (update_frame 1 ⟨some "B", none⟩ [⟨1, "A", "a"⟩, ⟨2, "X", "x"⟩] 0 ⟨1, "A", "a"⟩
      (by decide)).2 1 (by decide)⟩

/-- C8: on failure, every operation's ERROR branch installs the snapshot
reference back as the cache entry verbatim when one is present (and never
touches array contents), and emits exactly one error toast whose message
names the entity type Category and ends with a newline plus the string
rendering of the error exactly when the error value is truthy
(`errRendering none` is empty, `errRendering (some s)` is the rendering). -/
theorem error_branch_restore_and_notify (err : TransportError) (a : Nat)
    (ctx : MutationContext) (st : CacheState) :
    ((createOnError err (some a) st).1.cache = some a ∧
     (updateOnError err (some a) st).1.cache = some a ∧
     (repositionOnError err (some a) st).1.cache = some a ∧
     (deleteOnError err (some a) st).1.cache = some a) ∧
    ((createOnError err ctx st).1.heap = st.heap ∧
     (updateOnError err ctx st).1.heap = st.heap ∧
     (repositionOnError err ctx st).1.heap = st.heap ∧
     (deleteOnError err ctx st).1.heap = st.heap) ∧
    (∃ p, (createOnError err ctx st).2 =
      [Event.toastError (p ++ "Category" ++ errRendering err)]) ∧
    (∃ p, (updateOnError err ctx st).2 =
      [Event.toastError (p ++ "Category" ++ errRendering err)]) ∧
    (∃ p, (repositionOnError err ctx st).2 =
      [Event.toastError (p ++ "Category" ++ errRendering err)]) ∧
    (∃ p, (deleteOnError err ctx st).2 =
      [Event.toastError (p ++ "Category" ++ errRendering err)]) ∧
    errRendering none = "" ∧ (∀ s, errRendering (some s) = "\n" ++ s) := by
  refine ⟨⟨rfl, rfl, rfl, rfl⟩, ⟨?_, ?_, ?_, ?_⟩, ?_, ?_, ?_, ?_, rfl, fun s => rfl⟩
  · cases ctx <;> rfl
  · cases ctx <;> rfl
  · cases ctx <;> rfl
  · cases ctx <;> rfl
  · refine ⟨"An error occurred while creating a new ", ?_⟩
    have hs : ("An error occurred while creating a new " ++ "Category" : String) =
        "An error occurred while creating a new Category" := by decide
    show [Event.toastError ("An error occurred while creating a new Category" ++
      errRendering err)] = _
    rw [hs]
  · refine ⟨"An error occurred while updating ", ?_⟩
    have hs : ("An error occurred while updating " ++ "Category" : String) =
        "An error occurred while updating Category" := by decide
    show [Event.toastError ("An error occurred while updating Category" ++
      errRendering err)] = _
    rw [hs]
  · refine ⟨"An error occurred while repositioning ", ?_⟩
    have hs : ("An error occurred while repositioning " ++ "Category" : String) =
        "An error occurred while repositioning Category" := by decide
    show [Event.toastError ("An error occurred while repositioning Category" ++
      errRendering err)] = _
    rw [hs]
  · refine ⟨"An error occurred while deleting the ", ?_⟩
    have hs : ("An error occurred while deleting the " ++ "Category" : String) =
        "An error occurred while deleting the Category" := by decide
    show [Event.toastError ("An error occurred while deleting the Category" ++
      errRendering err)] = _
    rw [hs]
